import Mathlib

/-
Verification of the statistical decision engine of the mbo repository:
safety controller, Bayesian online changepoint detector, EVT tail-risk
estimator, contextual bandits, and the feature store. Each component is
shallowly embedded from its Python source (src/ml-backend/...); machine
floats are modelled as exact rationals, Python exceptions as Except, and
mutable objects as explicit state passing.
-/

/-- A Python runtime value as it appears in the dictionaries handled by the
decision engine: a number (float or int, modelled as an exact rational), a
string, a boolean, or Python None. -/
inductive PyVal where
  | num (q : ℚ)
  | str (s : String)
  | bool (b : Bool)
  | pyNone
deriving DecidableEq, Repr

/-- A Python dict with string keys, modelled as an association list (the
literal dicts built by this codebase never repeat a key). -/
abbrev PyDict := List (String × PyVal)

/-- Python `d.get(key, default)`: the first binding of the key, or the
default when the key is absent. -/
def PyDict.get (d : PyDict) (k : String) (dflt : PyVal) : PyVal :=
  (List.lookup k d).getD dflt

/- ---------------------------------------------------------------------
Safety controller (src/ml-backend/safety/safety_controller.py)
--------------------------------------------------------------------- -/

/-- The SafetyLevel enum of safety_controller.py. -/
inductive SafetyLevel where
  | safe
  | warning
  | notSafe
  | critical
deriving DecidableEq, Repr

/-- The SafetyCheck dataclass: a named check with a predicate over
(model output, context).  The predicate may throw, which the embedding
renders as `Except.error`. -/
structure SafetyCheck where
  name : String
  check_fn : PyDict → Option PyDict → Except String Bool
  severity : SafetyLevel
  description : String
  enabled : Bool := true

/-- One entry of the controller's violation history (the `datetime.now()`
timestamp is passed in explicitly as `now`). -/
structure ViolationRecord where
  timestamp : ℕ
  model_type : String
  violations : List String
  output : PyDict

/-- The SafetyValidationResult dataclass. -/
structure SafetyValidationResult where
  is_safe : Bool
  safety_level : SafetyLevel
  violations : List String
  warnings : List String
  metadata : PyDict

/-- The SafetyController's mutable state: per-model-type check lists and
the global emergency / human-override switches. -/
structure SafetyController where
  checks : List (String × List SafetyCheck)
  human_override_active : Bool
  emergency_mode : Bool
  violation_history : List ViolationRecord

/-- Accumulator of the check loop inside `validate`: the violation and
warning message lists and the running highest severity. -/
structure CheckAcc where
  violations : List String
  warnings : List String
  highest : SafetyLevel

/-- One iteration of the `for check in checks` loop of
`SafetyController.validate` (safety_controller.py lines 130-155): a
disabled check is skipped; a failing unsafe/critical check appends a
violation and raises the running severity (critical is kept by the
`elif highest_severity != CRITICAL` guard); a failing warning check
appends a warning; a throwing check appends a `check_error` violation and
assigns severity unsafe unconditionally. -/
def checkStep (out : PyDict) (ctx : Option PyDict) (acc : CheckAcc)
    (check : SafetyCheck) : CheckAcc :=
  if check.enabled = false then acc
  else
    match check.check_fn out ctx with
    | Except.ok passed =>
        if passed = false then
          if check.severity = SafetyLevel.notSafe ∨
              check.severity = SafetyLevel.critical then
            { acc with
              violations := acc.violations ++
                [check.name ++ ": " ++ check.description],
              highest :=
                if check.severity = SafetyLevel.critical then
                  SafetyLevel.critical
                else if acc.highest ≠ SafetyLevel.critical then
                  SafetyLevel.notSafe
                else acc.highest }
          else if check.severity = SafetyLevel.warning then
            { acc with
              warnings := acc.warnings ++
                [check.name ++ ": " ++ check.description],
              highest :=
                if acc.highest = SafetyLevel.safe then SafetyLevel.warning
                else acc.highest }
          else acc
        else acc
    | Except.error _ =>
        { acc with
          violations := acc.violations ++ [check.name ++ ": check_error"],
          highest := SafetyLevel.notSafe }

/-- `SafetyController.validate` (safety_controller.py lines 86-178),
returning the validation result together with the controller state after
the call (the violation history may have grown). -/
def SafetyController.validate (c : SafetyController) (model_type : String)
    (model_output : PyDict) (context : Option PyDict) (now : ℕ) :
    SafetyValidationResult × SafetyController :=
  if c.emergency_mode then
    ({ is_safe := false
       safety_level := SafetyLevel.critical
       violations := ["emergency_mode_active"]
       warnings := []
       metadata := [("emergency_mode", PyVal.bool true)] }, c)
  else if c.human_override_active then
    ({ is_safe := true
       safety_level := SafetyLevel.safe
       violations := []
       warnings := ["human_override_active"]
       metadata := [("human_override", PyVal.bool true)] }, c)
  else
    let checks := (List.lookup model_type c.checks).getD []
    let acc := checks.foldl (checkStep model_output context)
      { violations := [], warnings := [], highest := SafetyLevel.safe }
    let c' :=
      if acc.violations ≠ [] then
        { c with violation_history := c.violation_history ++
            [{ timestamp := now, model_type := model_type,
               violations := acc.violations, output := model_output }] }
      else c
    ({ is_safe := acc.violations.length = 0
       safety_level := acc.highest
       violations := acc.violations
       warnings := acc.warnings
       metadata := [("model_type", PyVal.str model_type),
                    ("checks_run", PyVal.num checks.length),
                    ("timestamp", PyVal.num now)] }, c')

/-- C1: with emergency mode on, `validate` short-circuits to an unsafe
critical result carrying the single violation "emergency_mode_active";
with emergency mode off and human override on, it short-circuits to a safe
result with no violations.  The result is a constant independent of the
registered checks, so no check runs on either path. -/
theorem C1_validate_short_circuits :
    ∀ (c : SafetyController) (t : String) (out : PyDict)
      (ctx : Option PyDict) (now : ℕ),
      (c.emergency_mode = true →
        (c.validate t out ctx now).1 =
          { is_safe := false
            safety_level := SafetyLevel.critical
            violations := ["emergency_mode_active"]
            warnings := []
            metadata := [("emergency_mode", PyVal.bool true)] }) ∧
      (c.emergency_mode = false → c.human_override_active = true →
        (c.validate t out ctx now).1 =
          { is_safe := true
            safety_level := SafetyLevel.safe
            violations := []
            warnings := ["human_override_active"]
            metadata := [("human_override", PyVal.bool true)] }) := by
  intro c t out ctx now
  constructor
  · intro hem
    simp [SafetyController.validate, hem]
  · intro hem hov
    simp [SafetyController.validate, hem, hov]

/-- Witness for C1 at a concrete controller with a registered check: both
short-circuit branches evaluate as stated. -/
theorem C1_validate_short_circuits_witness :
    ((({ checks := [("bandit",
          [{ name := "always_fail",
             check_fn := fun _ _ => Except.ok false,
             severity := SafetyLevel.critical,
             description := "fails" }])],
         human_override_active := false,
         emergency_mode := true,
         violation_history := [] } : SafetyController).validate
          "bandit" [] none 0).1.is_safe = false) ∧
    ((({ checks := [],
         human_override_active := true,
         emergency_mode := false,
         violation_history := [] } : SafetyController).validate
          "bandit" [] none 0).1.is_safe = true) := by
  constructor
  · exact congrArg SafetyValidationResult.is_safe
      ((C1_validate_short_circuits _ "bandit" [] none 0).1 rfl)
  · exact congrArg SafetyValidationResult.is_safe
      ((C1_validate_short_circuits _ "bandit" [] none 0).2 rfl rfl)

/-- C2 (code behaviour at the failing input): a controller whose "bandit"
checks are a failing critical check followed by a throwing check yields a
final aggregated severity of unsafe, not critical — the exception handler
at safety_controller.py line 155 assigns severity unsafe without the
`!= CRITICAL` guard used on the normal path, so the sticky-critical
invariant claimed by the spec is broken by the code.  Both failures are
still recorded as violations. -/
theorem C2_exception_downgrades_critical :
    (({ checks := [("bandit",
        [{ name := "crit_check",
           check_fn := fun _ _ => Except.ok false,
           severity := SafetyLevel.critical,
           description := "critical failure" },
         { name := "boom_check",
           check_fn := fun _ _ => Except.error "boom",
           severity := SafetyLevel.warning,
           description := "throws" }])],
        human_override_active := false,
        emergency_mode := false,
        violation_history := [] } : SafetyController).validate
         "bandit" [] none 0).1.safety_level = SafetyLevel.notSafe ∧
    (({ checks := [("bandit",
        [{ name := "crit_check",
           check_fn := fun _ _ => Except.ok false,
           severity := SafetyLevel.critical,
           description := "critical failure" },
         { name := "boom_check",
           check_fn := fun _ _ => Except.error "boom",
           severity := SafetyLevel.warning,
           description := "throws" }])],
        human_override_active := false,
        emergency_mode := false,
        violation_history := [] } : SafetyController).validate
         "bandit" [] none 0).1.violations.length = 2 := by
  constructor
  · rfl
  · rfl

/- ---------------------------------------------------------------------
Tail-risk estimator (src/ml-backend/models/tail_control/evt_pot.py)
--------------------------------------------------------------------- -/

/-- Maximum value of a list (np.max over a nonempty array; 0 on the empty
list, which the source never reaches). -/
def maxVal : List ℚ → ℚ
  | [] => 0
  | x :: xs => xs.foldl max x

/-- Index of the first occurrence of the maximum (np.argmax semantics:
ties are broken towards the earliest index). -/
def argmaxIdx : List ℚ → ℕ
  | [] => 0
  | [_] => 0
  | x :: y :: rest =>
      if x < maxVal (y :: rest) then argmaxIdx (y :: rest) + 1 else 0

/-- The loop body of `EVTModel._decluster` (evt_pot.py lines 227-234) on
the suffix of the exceedance array starting at the current scan index:
take the window `exceedances[i : i+W]`, keep the element at the window's
argmax, and resume the scan at `max_idx + W`.  The fuel argument only
bounds the number of iterations; `xs.length` is always enough because for
`1 ≤ W` every iteration drops at least one element.  (For `W = 0` the
source raises inside `np.argmax` of an empty slice, so the theorems below
assume `1 ≤ W`.) -/
def declusterGo (W : ℕ) : ℕ → List ℚ → List ℚ
  | 0, _ => []
  | _ + 1, [] => []
  | fuel + 1, x :: rest =>
      let w := (x :: rest).take W
      let m := argmaxIdx w
      w.getD m 0 :: declusterGo W fuel ((x :: rest).drop (m + W))

/-- `EVTModel._decluster` (evt_pot.py lines 210-236) with the declustering
window passed explicitly. -/
def decluster (W : ℕ) (xs : List ℚ) : List ℚ :=
  declusterGo W xs.length xs

/-- The windows actually examined by the `_decluster` scan, as
(absolute start index, window length) pairs; the recursion mirrors
`declusterGo` exactly. -/
def scanWindowsGo (W : ℕ) : ℕ → ℕ → List ℚ → List (ℕ × ℕ)
  | 0, _, _ => []
  | _ + 1, _, [] => []
  | fuel + 1, i, x :: rest =>
      let w := (x :: rest).take W
      let m := argmaxIdx w
      (i, w.length) :: scanWindowsGo W fuel (i + (m + W)) ((x :: rest).drop (m + W))

/-- The scanned windows of `_decluster` over a whole exceedance array. -/
def scannedWindows (W : ℕ) (xs : List ℚ) : List (ℕ × ℕ) :=
  scanWindowsGo W xs.length 0 xs

/-- Recursion underlying `declusterSpec`: chop off a window of size W,
keep its maximum, continue on the rest. -/
def declusterSpecGo (W : ℕ) : ℕ → List ℚ → List ℚ
  | 0, _ => []
  | _ + 1, [] => []
  | fuel + 1, x :: rest =>
      maxVal ((x :: rest).take W) :: declusterSpecGo W fuel ((x :: rest).drop W)

/-- Modelled from the spec's words for claim C5 (not from the source):
partition the input into consecutive non-overlapping windows of size W
and keep the maximum of each window. -/
def declusterSpec (W : ℕ) (xs : List ℚ) : List ℚ :=
  declusterSpecGo W xs.length xs

/-- `EVTModel.calculate_return_period` (evt_pot.py lines 127-145); both
arguments are Python non-negative ints in every call site, and `//` on
non-negative ints is floor division. -/
def calculate_return_period (n_exceedances : ℕ) (window_size : ℕ) : ℕ :=
  if n_exceedances = 0 then window_size * 10
  else max 1 (window_size / n_exceedances)

/-- The EVTModel state fitted by `fit` (evt_pot.py lines 27-48): the
selected threshold, the GPD shape and scale, and the fitted flag. -/
structure EVTModel where
  threshold : Option ℚ
  gpd_shape : Option ℚ
  gpd_scale : Option ℚ
  fitted : Bool

/-- `EVTModel.predict_extreme_probability` (evt_pot.py lines 96-125).
The external `scipy.stats.genpareto.sf(excess, shape, loc=0, scale)` call
is abstracted as the function `sf` of the excess, already specialized to
the fitted shape and scale (it is a transcendental function outside the
executable fragment); the structure of the guard and of the excess
computation is taken from the source. -/
def predict_extreme_probability (sf : ℚ → ℚ) (m : EVTModel) (value : ℚ) : ℚ :=
  if m.fitted = false ∨ value ≤ m.threshold.getD 0 then 0
  else sf (value - m.threshold.getD 0)

/-- Exact closed form of `scipy.stats.genpareto.sf(x, 1, loc=0, scale=1)`
(GPD survival function with shape 1 and scale 1): 1/(1+x) for x ≥ 0 and
1 below the support. -/
def gpdSFshape1 (x : ℚ) : ℚ :=
  if x < 0 then 1 else 1 / (1 + x)

/-- Folding max from a seed `max x y` is the same as taking max of x with
the fold from seed y. -/
theorem foldl_max_seed (l : List ℚ) : ∀ (x y : ℚ),
    l.foldl max (max x y) = max x (l.foldl max y) := by
  induction l with
  | nil => intro x y; simp
  | cons z zs ih =>
      intro x y
      simp only [List.foldl_cons]
      rw [max_assoc, ih]

/-- The maximum of a nonempty cons is the max of the head and the tail's
maximum. -/
theorem maxVal_cons (x : ℚ) (l : List ℚ) (h : l ≠ []) :
    maxVal (x :: l) = max x (maxVal l) := by
  cases l with
  | nil => exact absurd rfl h
  | cons y ys => simp only [maxVal, List.foldl_cons]; exact foldl_max_seed ys x y

/-- The argmax index is within bounds on a nonempty list. -/
theorem argmaxIdx_lt_length : ∀ l : List ℚ, l ≠ [] → argmaxIdx l < l.length := by
  intro l
  induction l with
  | nil => intro h; exact absurd rfl h
  | cons x xs ih =>
      intro _
      cases xs with
      | nil => simp [argmaxIdx]
      | cons y ys =>
          simp only [argmaxIdx]
          by_cases hx : x < maxVal (y :: ys)
          · rw [if_pos hx]
            have := ih (by simp)
            simpa [Nat.succ_lt_succ_iff] using this
          · rw [if_neg hx]
            simp

/-- The element at the argmax index is the maximum of the list. -/
theorem getD_argmaxIdx : ∀ l : List ℚ, l ≠ [] →
    l.getD (argmaxIdx l) 0 = maxVal l := by
  intro l
  induction l with
  | nil => intro h; exact absurd rfl h
  | cons x xs ih =>
      intro _
      cases xs with
      | nil => simp [argmaxIdx, maxVal]
      | cons y ys =>
          rw [maxVal_cons x (y :: ys) (by simp)]
          simp only [argmaxIdx]
          by_cases hx : x < maxVal (y :: ys)
          · rw [if_pos hx]
            simp only [List.getD_cons_succ]
            rw [ih (by simp)]
            exact (max_eq_right (le_of_lt hx)).symm
          · rw [if_neg hx]
            simp only [List.getD_cons_zero]
            exact (max_eq_left (not_lt.mp hx)).symm

/-- Taking as many elements as the truncated window actually has is the
same as taking the full window size. -/
theorem take_window_length (l : List ℚ) (W : ℕ) :
    l.take (l.take W).length = l.take W := by
  rw [List.length_take]
  rcases le_total W l.length with h | h
  · rw [min_eq_left h]
  · rw [min_eq_right h, List.take_length, List.take_of_length_le h]

/-- The output of the decluster scan is exactly the maximum of each
scanned window, stated over the generalized recursion with an absolute
start index. -/
theorem declusterGo_eq_map (W : ℕ) (hW : 1 ≤ W) (xs : List ℚ) :
    ∀ (fuel i : ℕ) (l : List ℚ), l = xs.drop i →
      declusterGo W fuel l =
        (scanWindowsGo W fuel i l).map
          (fun p => maxVal ((xs.drop p.1).take p.2)) := by
  intro fuel
  induction fuel with
  | zero => intro i l _; rfl
  | succ fuel ih =>
      intro i l hl
      cases l with
      | nil => rfl
      | cons x rest =>
          simp only [declusterGo, scanWindowsGo, List.map_cons]
          congr 1
          · have hne : (x :: rest).take W ≠ [] := by
              cases W with
              | zero => omega
              | succ W => simp [List.take_cons]
            rw [← hl, take_window_length]
            exact getD_argmaxIdx _ hne
          · apply ih
            rw [hl, List.drop_drop]

/-- Every window produced by the scan starts at or after the scan's
starting index. -/
theorem scanWindowsGo_start_le (W : ℕ) :
    ∀ (fuel i : ℕ) (l : List ℚ) (q : ℕ × ℕ),
      q ∈ scanWindowsGo W fuel i l → i ≤ q.1 := by
  intro fuel
  induction fuel with
  | zero => intro i l q h; simp [scanWindowsGo] at h
  | succ fuel ih =>
      intro i l q h
      cases l with
      | nil => simp [scanWindowsGo] at h
      | cons x rest =>
          simp only [scanWindowsGo, List.mem_cons] at h
          rcases h with h | h
          · subst h; exact le_refl i
          · have := ih _ _ _ h
            omega

/-- The scanned windows are pairwise disjoint: each window ends at or
before the start of every later window. -/
theorem scanWindowsGo_pairwise (W : ℕ) :
    ∀ (fuel i : ℕ) (l : List ℚ),
      (scanWindowsGo W fuel i l).Pairwise (fun p q => p.1 + p.2 ≤ q.1) := by
  intro fuel
  induction fuel with
  | zero => intro i l; simp [scanWindowsGo]
  | succ fuel ih =>
      intro i l
      cases l with
      | nil => simp [scanWindowsGo]
      | cons x rest =>
          simp only [scanWindowsGo]
          refine List.Pairwise.cons ?_ (ih _ _)
          intro q hq
          have hstart := scanWindowsGo_start_le W _ _ _ _ hq
          have hlen : ((x :: rest).take W).length ≤ W := by
            rw [List.length_take]; exact min_le_left _ _
          simp only
          omega

/-- A list of pairwise-disjoint ordered intervals covers each point at
most once. -/
theorem pairwise_disjoint_filter_le_one :
    ∀ (L : List (ℕ × ℕ)), L.Pairwise (fun p q => p.1 + p.2 ≤ q.1) →
      ∀ i : ℕ,
        (L.filter (fun p => decide (p.1 ≤ i ∧ i < p.1 + p.2))).length ≤ 1 := by
  intro L hL i
  induction L with
  | nil => simp
  | cons p L ih =>
      rcases List.pairwise_cons.mp hL with ⟨hp, hL'⟩
      by_cases hmem : p.1 ≤ i ∧ i < p.1 + p.2
      · rw [List.filter_cons_of_pos (by simpa using hmem)]
        have hnil : L.filter (fun p => decide (p.1 ≤ i ∧ i < p.1 + p.2)) = [] := by
          apply List.filter_eq_nil_iff.mpr
          intro q hq
          have := hp q hq
          simp only [decide_eq_true_eq]
          omega
        rw [hnil]
        simp
      · rw [List.filter_cons_of_neg (by simpa using hmem)]
        exact ih hL'

/-- C5 counterexample: with window size 2 on exceedances [1, 5, 9, 2] the
scan keeps [5, 2] while a partition into consecutive windows of size 2
would keep [5, 9]; the input element at index 2 (value 9) lies in no
scanned window, because after keeping the maximum 5 at index 1 the scan
resumes at index 1 + 2 = 3. -/
theorem C5_decluster_not_partition :
    decluster 2 [1, 5, 9, 2] = [5, 2] ∧
    declusterSpec 2 [1, 5, 9, 2] = [5, 9] ∧
    decluster 2 [1, 5, 9, 2] ≠ declusterSpec 2 [1, 5, 9, 2] ∧
    (scannedWindows 2 [1, 5, 9, 2]).filter
      (fun p => decide (p.1 ≤ 2 ∧ 2 < p.1 + p.2)) = [] := by
  refine ⟨by decide, by decide, by decide, by decide⟩

/-- C5 as amended: for window size W ≥ 1, `_decluster` scans windows left
to right, each window starting at the current index; it keeps exactly the
maximum of each scanned window and resumes at (index of that maximum) + W,
so the scanned windows are pairwise disjoint and in increasing position
and every input element belongs to at most one scanned window — but the
windows need not cover the input, so the scan is not a partition. -/
theorem C5_decluster_scanned_windows :
    ∀ (W : ℕ), 1 ≤ W → ∀ (xs : List ℚ),
      decluster W xs =
        (scannedWindows W xs).map (fun p => maxVal ((xs.drop p.1).take p.2)) ∧
      (scannedWindows W xs).Pairwise (fun p q => p.1 + p.2 ≤ q.1) ∧
      ∀ i : ℕ,
        ((scannedWindows W xs).filter
          (fun p => decide (p.1 ≤ i ∧ i < p.1 + p.2))).length ≤ 1 := by
  intro W hW xs
  refine ⟨?_, ?_, ?_⟩
  · exact declusterGo_eq_map W hW xs xs.length 0 xs (by simp)
  · exact scanWindowsGo_pairwise W xs.length 0 xs
  · intro i
    exact pairwise_disjoint_filter_le_one _ (scanWindowsGo_pairwise W xs.length 0 xs) i

/-- Witness for the amended C5 at window size 2 and a concrete exceedance
list. -/
theorem C5_decluster_scanned_windows_witness :
    1 ≤ 2 ∧
    decluster 2 [3, 7, 4, 1, 8] =
      (scannedWindows 2 [3, 7, 4, 1, 8]).map
        (fun p => maxVal (([3, 7, 4, 1, 8] : List ℚ).drop p.1 |>.take p.2)) :=
  ⟨by decide, (C5_decluster_scanned_windows 2 (by decide) [3, 7, 4, 1, 8]).1⟩

/-- C6: the return period is window_size // n_exceedances (floor division,
stated via the rational floor) clamped below at 1, with the zero-count
case special-cased to window_size * 10; in particular
return_period(0, 1000) = 10000 and return_period(10, 1000) = 100. -/
theorem C6_return_period_formula :
    (∀ n w : ℕ, 0 < n →
      calculate_return_period n w = max 1 (Nat.floor ((w : ℚ) / (n : ℚ)))) ∧
    (∀ w : ℕ, calculate_return_period 0 w = w * 10) ∧
    calculate_return_period 0 1000 = 10000 ∧
    calculate_return_period 10 1000 = 100 := by
  refine ⟨?_, fun w => rfl, rfl, rfl⟩
  intro n w hn
  rw [calculate_return_period, if_neg (Nat.pos_iff_ne_zero.mp hn)]
  congr 1
  rw [Nat.floor_div_nat, Nat.floor_natCast]

/-- Witness for C6 at n_exceedances = 10, window_size = 1000. -/
theorem C6_return_period_formula_witness :
    0 < 10 ∧
    calculate_return_period 10 1000 = max 1 (Nat.floor ((1000 : ℚ) / (10 : ℚ))) :=
  ⟨by decide, C6_return_period_formula.1 10 1000 (by decide)⟩

/-- A concrete fitted EVT model: threshold 0, GPD shape 1, scale 1. -/
def evtFittedExample : EVTModel :=
  { threshold := some 0, gpd_shape := some 1, gpd_scale := some 1, fitted := true }

/-- C9 counterexample: on the fitted model with threshold 0, shape 1 and
scale 1, the exceedance probability at the threshold itself is 0 but at
value 1 it is sf(1) = 1/2 > 0, so exceedance_probability is not
monotonically non-increasing over all pairs v1 ≤ v2 — it jumps upward
across the threshold. -/
theorem C9_exceedance_probability_not_monotone :
    predict_extreme_probability gpdSFshape1 evtFittedExample 0 = 0 ∧
    predict_extreme_probability gpdSFshape1 evtFittedExample 1 = 1 / 2 ∧
    ¬ (predict_extreme_probability gpdSFshape1 evtFittedExample 1 ≤
        predict_extreme_probability gpdSFshape1 evtFittedExample 0) := by
  refine ⟨?_, ?_, ?_⟩ <;>
    norm_num [predict_extreme_probability, evtFittedExample, gpdSFshape1]

/-- The shape-1 scale-1 GPD survival function is non-increasing. -/
theorem gpdSFshape1_antitone : ∀ a b : ℚ, a ≤ b → gpdSFshape1 b ≤ gpdSFshape1 a := by
  intro a b hab
  unfold gpdSFshape1
  by_cases hb : b < 0
  · rw [if_pos (lt_of_le_of_lt hab hb), if_pos hb]
  · rw [if_neg hb]
    have hb0 : (0 : ℚ) ≤ b := not_lt.mp hb
    by_cases ha : a < 0
    · rw [if_pos ha]
      rw [div_le_one (by linarith)]
      linarith
    · rw [if_neg ha]
      have ha0 : (0 : ℚ) ≤ a := not_lt.mp ha
      exact one_div_le_one_div_of_le (by linarith) (by linarith)

/-- C9 as amended: an unfitted model returns 0 everywhere; a fitted model
returns 0 for every value at or below the threshold; and restricted to
values strictly above the threshold the exceedance probability is
monotonically non-increasing (for any non-increasing survival function,
as the fitted GPD's is).  Monotonicity does not extend across the
threshold. -/
theorem C9_exceedance_probability_above_threshold :
    ∀ (sf : ℚ → ℚ), (∀ a b : ℚ, a ≤ b → sf b ≤ sf a) →
    ∀ (m : EVTModel) (v v1 v2 : ℚ),
      (m.fitted = false → predict_extreme_probability sf m v = 0) ∧
      (v ≤ m.threshold.getD 0 → predict_extreme_probability sf m v = 0) ∧
      (m.threshold.getD 0 < v1 → v1 ≤ v2 →
        predict_extreme_probability sf m v2 ≤
          predict_extreme_probability sf m v1) := by
  intro sf hmono m v v1 v2
  refine ⟨?_, ?_, ?_⟩
  · intro h
    simp [predict_extreme_probability, h]
  · intro h
    simp [predict_extreme_probability, h]
  · intro h1 h12
    have h2 : m.threshold.getD 0 < v2 := lt_of_lt_of_le h1 h12
    unfold predict_extreme_probability
    cases hf : m.fitted with
    | false => simp
    | true =>
        have hc : ∀ w : ℚ, m.threshold.getD 0 < w →
            ¬((true : Bool) = false ∨ w ≤ m.threshold.getD 0) := by
          intro w hw hor
          rcases hor with h | h
          · exact Bool.noConfusion h
          · exact absurd h (not_le.mpr hw)
        rw [if_neg (hc v2 h2), if_neg (hc v1 h1)]
        exact hmono _ _ (sub_le_sub_right h12 _)

/-- Witness for the amended C9 on the concrete fitted shape-1 model. -/
theorem C9_exceedance_probability_above_threshold_witness :
    evtFittedExample.threshold.getD 0 < 1 ∧ (1 : ℚ) ≤ 2 ∧
    predict_extreme_probability gpdSFshape1 evtFittedExample 2 ≤
      predict_extreme_probability gpdSFshape1 evtFittedExample 1 ∧
    predict_extreme_probability gpdSFshape1 evtFittedExample 0 = 0 :=
  ⟨by decide, by decide,
   (C9_exceedance_probability_above_threshold gpdSFshape1 gpdSFshape1_antitone
      evtFittedExample 0 1 2).2.2 (by decide) (by decide),
   (C9_exceedance_probability_above_threshold gpdSFshape1 gpdSFshape1_antitone
      evtFittedExample 0 1 2).2.1 (by decide)⟩

/- ---------------------------------------------------------------------
Contextual bandits (src/ml-backend/models/optimization/contextual_bandits.py)
--------------------------------------------------------------------- -/

/-- The BanditArm dataclass. -/
structure BanditArm where
  config_id : ℕ
  name : String
  rewards : List ℚ
  contexts : List (List ℚ)
  n_pulls : ℕ

/-- The `mean_reward` property: np.mean of the recorded rewards, or 0.0
when no reward has been recorded. -/
def BanditArm.mean_reward (a : BanditArm) : ℚ :=
  if a.rewards = [] then 0 else a.rewards.sum / a.rewards.length

/-- The ContextualBanditUCB state. -/
structure ContextualBanditUCB where
  num_arms : ℕ
  exploration_factor : ℚ
  arms : List BanditArm
  total_pulls : ℕ

/-- The ContextualBanditUCB constructor (contextual_bandits.py lines
40-69). -/
def mkContextualBanditUCB (num_arms : ℕ) (exploration_factor : ℚ) :
    ContextualBanditUCB :=
  { num_arms := num_arms
    exploration_factor := exploration_factor
    arms := (List.range num_arms).map (fun i =>
      { config_id := i, name := "config_" ++ toString i,
        rewards := [], contexts := [], n_pulls := 0 })
    total_pulls := 0 }

/-- `ContextualBanditUCB.select_arm` (contextual_bandits.py lines
71-103): the first arm with zero pulls if one exists, otherwise the
argmax of the UCB scores.  The score
mean + c * sqrt(log(total_pulls + 1) / (n_pulls + 1)) involves sqrt and
log, which are transcendental, so the score is abstracted as the function
argument `score`; the zero-pull forced-exploration branch and the argmax
come from the source. -/
def select_arm (score : ContextualBanditUCB → BanditArm → ℚ)
    (b : ContextualBanditUCB) : ℕ :=
  match b.arms.findIdx? (fun a => a.n_pulls == 0) with
  | some i => i
  | none => argmaxIdx (b.arms.map (score b))

/-- `ContextualBanditUCB.update` (contextual_bandits.py lines 105-122):
append the reward, bump the arm's pull count and the total.  An
out-of-range arm_id raises IndexError in Python; the model leaves the
state unchanged there, and no claim exercises that case. -/
def ContextualBanditUCB.update (b : ContextualBanditUCB) (arm_id : ℕ)
    (reward : ℚ) (context : Option (List ℚ)) : ContextualBanditUCB :=
  match b.arms.get? arm_id with
  | none => b
  | some arm =>
      let arm' := { arm with
        rewards := arm.rewards ++ [reward]
        n_pulls := arm.n_pulls + 1
        contexts := match context with
          | some ctx => arm.contexts ++ [ctx]
          | none => arm.contexts }
      { b with arms := b.arms.set arm_id arm', total_pulls := b.total_pulls + 1 }

/-- `ContextualBanditUCB.get_best_arm` (contextual_bandits.py lines
127-130): argmax of the per-arm mean rewards. -/
def ContextualBanditUCB.get_best_arm (b : ContextualBanditUCB) : ℕ :=
  argmaxIdx (b.arms.map (fun a => a.mean_reward))

/-- An interleaved select/update run: repeat k times (select an arm, then
update that arm with the next reward of `rs`), collecting the selected
arms in order. -/
def runTrace (score : ContextualBanditUCB → BanditArm → ℚ) :
    ℕ → ContextualBanditUCB → List ℚ → List ℕ
  | 0, _, _ => []
  | k + 1, b, rs =>
      let i := select_arm score b
      i :: runTrace score k (b.update i (rs.headD 0) none) rs.tail

/-- If some arm in the list has zero pulls, `findIdx?` (from any start
offset) finds an index whose arm has zero pulls. -/
theorem findIdx_zero_pulls : ∀ (l : List BanditArm) (i : ℕ),
    (∃ a ∈ l, a.n_pulls = 0) →
    ∃ j a, l.findIdx? (fun a => a.n_pulls == 0) i = some j ∧ i ≤ j ∧
      l.get? (j - i) = some a ∧ a.n_pulls = 0 := by
  intro l
  induction l with
  | nil => intro i h; simp at h
  | cons x xs ih =>
      intro i h
      by_cases hx : x.n_pulls = 0
      · refine ⟨i, x, ?_, le_refl i, ?_, hx⟩
        · rw [List.findIdx?_cons, if_pos (by simpa using hx)]
        · simp
      · have hxs : ∃ a ∈ xs, a.n_pulls = 0 := by
          rcases h with ⟨a, ha, hz⟩
          rcases List.mem_cons.mp ha with rfl | ha'
          · exact absurd hz hx
          · exact ⟨a, ha', hz⟩
        rcases ih (i + 1) hxs with ⟨j, a, hfind, hij, hget, hz⟩
        refine ⟨j, a, ?_, by omega, ?_, hz⟩
        · rw [List.findIdx?_cons, if_neg (by simpa using hx)]
          exact hfind
        · have hji : j - i = (j - (i + 1)) + 1 := by omega
          rw [hji, List.get?_cons_succ]
          exact hget

/-- C4: with 5 arms and zero prior pulls, interleaving select with an
update of the selected arm, the first 5 selections are exactly arms
0,1,2,3,4 (in particular some order covering all five exactly once),
whatever the rewards and the UCB score function; and in any state where
some arm has zero pulls, `select_arm` returns an arm with zero pulls. -/
theorem C4_ucb_initial_exploration :
    (∀ (score : ContextualBanditUCB → BanditArm → ℚ) (c : ℚ) (rs : List ℚ),
      runTrace score 5 (mkContextualBanditUCB 5 c) rs = [0, 1, 2, 3, 4]) ∧
    (∀ (score : ContextualBanditUCB → BanditArm → ℚ) (b : ContextualBanditUCB),
      (∃ a ∈ b.arms, a.n_pulls = 0) →
      ∃ a, b.arms.get? (select_arm score b) = some a ∧ a.n_pulls = 0) := by
  constructor
  · intro score c rs
    rfl
  · intro score b hb
    rcases findIdx_zero_pulls b.arms 0 hb with ⟨j, a, hfind, _, hget, hz⟩
    refine ⟨a, ?_, hz⟩
    simp only [select_arm, hfind]
    simpa using hget

/-- Witness for C4's zero-pull clause at a concrete 3-arm bandit. -/
theorem C4_ucb_initial_exploration_witness :
    (∃ a ∈ (mkContextualBanditUCB 3 1).arms, a.n_pulls = 0) ∧
    (∃ a, (mkContextualBanditUCB 3 1).arms.get?
        (select_arm (fun _ _ => 0) (mkContextualBanditUCB 3 1)) = some a ∧
      a.n_pulls = 0) := by
  have hex : ∃ a ∈ (mkContextualBanditUCB 3 1).arms, a.n_pulls = 0 := by
    refine ⟨{ config_id := 0, name := "config_" ++ toString 0,
              rewards := [], contexts := [], n_pulls := 0 }, ?_, rfl⟩
    simp [mkContextualBanditUCB, List.mem_map]
    exact ⟨0, by simp, ⟨rfl, rfl⟩⟩
  exact ⟨hex, C4_ucb_initial_exploration.2 (fun _ _ => 0) _ hex⟩

/-- The ThompsonSamplingBandit state (contextual_bandits.py lines
149-220): per-arm Beta parameters and pull counts (np arrays of floats). -/
structure ThompsonSamplingBandit where
  num_arms : ℕ
  alpha : List ℚ
  beta : List ℚ
  n_pulls : List ℚ

/-- The ThompsonSamplingBandit constructor. -/
def mkThompsonSamplingBandit (num_arms : ℕ) (prior_alpha prior_beta : ℚ) :
    ThompsonSamplingBandit :=
  { num_arms := num_arms
    alpha := List.replicate num_arms prior_alpha
    beta := List.replicate num_arms prior_beta
    n_pulls := List.replicate num_arms 0 }

/-- Python `int(q)`: truncation toward zero. -/
def truncToZero (q : ℚ) : ℤ :=
  if 0 ≤ q then ⌊q⌋ else -⌊-q⌋

/-- Python `round(x)` to an integer: round half to even. -/
def roundHalfEven (x : ℚ) : ℤ :=
  let f := ⌊x⌋
  let d := x - f
  if d < 1 / 2 then f
  else if 1 / 2 < d then f + 1
  else if f % 2 = 0 then f else f + 1

/-- Python `round(x, d)` on the idealized exact value. -/
def pyRound (x : ℚ) (d : ℕ) : ℚ :=
  (roundHalfEven (x * 10 ^ d) : ℚ) / 10 ^ d

/-- The two interchangeable bandit implementations held by
OnlineTuningBandit. -/
inductive TuningBandit where
  | ucb (b : ContextualBanditUCB)
  | ts (t : ThompsonSamplingBandit)

/-- The OnlineTuningBandit wrapper (contextual_bandits.py lines 223-252). -/
structure OnlineTuningBandit where
  num_configs : ℕ
  method : String
  bandit : TuningBandit

/-- The OnlineTuningBandit constructor: method "ucb" builds a UCB bandit
with exploration factor scaled by 10, any other method builds a Thompson
sampling bandit with the default Beta(1,1) prior. -/
def mkOnlineTuningBandit (num_configs : ℕ) (method : String)
    (exploration_factor : ℚ) : OnlineTuningBandit :=
  { num_configs := num_configs
    method := method
    bandit :=
      if method = "ucb" then
        TuningBandit.ucb (mkContextualBanditUCB num_configs (exploration_factor * 10))
      else
        TuningBandit.ts (mkThompsonSamplingBandit num_configs 1 1) }

/-- `OnlineTuningBandit.select_config` (contextual_bandits.py lines
254-326).  The transcendental/random pieces are abstracted as arguments:
`score` stands for the UCB score expression inside
`ContextualBanditUCB.select_arm`, and `samples` for the
`np.random.beta(alpha, beta)` draw inside the Thompson bandit's
`select_arm` (which then takes the argmax of the samples).  Everything
else — the freeze branch, the canary percentage, the returned dict — is
taken from the source.  A method string paired with the other bandit
variant raises AttributeError in Python and is unreachable from the
constructor; the model returns arm 0 with reward 0 there. -/
def OnlineTuningBandit.select_config
    (score : ContextualBanditUCB → BanditArm → ℚ) (samples : List ℚ)
    (m : OnlineTuningBandit) (current_metrics : List (String × ℚ))
    (freeze_on_anomaly : Bool) : PyDict :=
  let canary_metric := (List.lookup "canary_metric" current_metrics).getD (2 / 5)
  if freeze_on_anomaly ∧ canary_metric < 3 / 10 then
    let best_config_id : ℕ :=
      match m.bandit with
      | TuningBandit.ucb b => b.get_best_arm
      | TuningBandit.ts _ => 0
    [("best_config_id", PyVal.num (best_config_id + 1)),
     ("action", PyVal.str "exploit"),
     ("reason", PyVal.str "anomaly_detected_frozen"),
     ("freeze_on_anomaly", PyVal.str "yes"),
     ("canary_percentage", PyVal.num 0),
     ("expected_reward", PyVal.num 0)]
  else
    let sel :=
      if m.method = "ucb" then
        match m.bandit with
        | TuningBandit.ucb b =>
            let selected := select_arm score b
            let mean_rewards := b.arms.map (fun a => pyRound a.mean_reward 4)
            let best_arm := argmaxIdx mean_rewards
            let exploit_prob : ℚ := if selected = best_arm then 9 / 10 else 1 / 10
            let expected_reward : ℚ :=
              if mean_rewards = [] then 1 / 2 else mean_rewards.getD selected 0
            (selected, expected_reward, exploit_prob)
        | TuningBandit.ts _ => (0, 0, 0)
      else
        match m.bandit with
        | TuningBandit.ts t =>
            let selected := argmaxIdx samples
            let a := t.alpha.getD selected 0
            let b := t.beta.getD selected 0
            let mean_reward := a / (a + b)
            let exploit_prob : ℚ := min (19 / 20) (canary_metric + 3 / 10)
            (selected, mean_reward, exploit_prob)
        | TuningBandit.ucb _ => (0, 0, 0)
    let selected_arm := sel.1
    let expected_reward := sel.2.1
    let exploit_prob := sel.2.2
    let canary_percentage : ℤ := min 5 (max 1 (truncToZero (canary_metric * 10)))
    [("best_config_id", PyVal.num (selected_arm + 1)),
     ("expected_reward", PyVal.num (pyRound expected_reward 3)),
     ("ucb_bound", PyVal.num (pyRound (expected_reward + 1 / 10) 3)),
     ("exploit_probability", PyVal.num (pyRound exploit_prob 2)),
     ("explore_probability", PyVal.num (pyRound (1 - exploit_prob) 2)),
     ("canary_percentage", PyVal.num canary_percentage),
     ("freeze_on_anomaly", PyVal.str "no"),
     ("context_features_used", PyVal.num current_metrics.length),
     ("method", PyVal.str m.method)]

/-- Python `a <= b` on dynamically typed values: defined between numbers
and booleans (bool is an int subclass with True = 1 and False = 0) and
between strings; any other combination raises TypeError. -/
def pyLE (a b : PyVal) : Except String Bool :=
  match a, b with
  | PyVal.num x, PyVal.num y => Except.ok (decide (x ≤ y))
  | PyVal.num x, PyVal.bool w => Except.ok (decide (x ≤ if w then 1 else 0))
  | PyVal.bool v, PyVal.num y => Except.ok (decide ((if v then (1 : ℚ) else 0) ≤ y))
  | PyVal.bool v, PyVal.bool w =>
      Except.ok (decide ((if v then (1 : ℚ) else 0) ≤ if w then 1 else 0))
  | PyVal.str s, PyVal.str t => Except.ok (decide (s ≤ t))
  | _, _ => Except.error "TypeError"

/-- The `canary_percentage_safe` predicate registered by
`register_default_safety_checks` (safety_controller.py lines 297-303):
`lambda out, ctx: 0 <= out.get("canary_percentage", 0) <= 10`, with the
chained comparison short-circuiting like Python. -/
def canary_percentage_safe (out : PyDict) (_ctx : Option PyDict) :
    Except String Bool :=
  match pyLE (PyVal.num 0) (out.get "canary_percentage" (PyVal.num 0)) with
  | Except.error e => Except.error e
  | Except.ok false => Except.ok false
  | Except.ok true => pyLE (out.get "canary_percentage" (PyVal.num 0)) (PyVal.num 10)

/-- Unfolding lemma for dict lookup with default. -/
theorem PyDict.get_cons (k' k : String) (v : PyVal) (d : PyDict) (dflt : PyVal) :
    PyDict.get ((k', v) :: d) k dflt = if k' = k then v else PyDict.get d k dflt := by
  by_cases h : k' = k
  · simp [PyDict.get, List.lookup, h]
  · have hb : (k == k') = false := beq_eq_false_iff_ne.mpr (Ne.symm h)
    simp [PyDict.get, List.lookup, h, hb]

/-- C10: the canary_percentage field of the decision returned by
`select_config` is 0 on the frozen branch and an integer in [1, 5]
otherwise; in all cases it is an integer in [0, 10], so the registered
`canary_percentage_safe` check always passes on the decision. -/
theorem C10_canary_percentage_safe_range :
    ∀ (score : ContextualBanditUCB → BanditArm → ℚ) (samples : List ℚ)
      (m : OnlineTuningBandit) (metrics : List (String × ℚ))
      (freeze : Bool) (ctx : Option PyDict),
      ((freeze = true ∧ (List.lookup "canary_metric" metrics).getD (2 / 5) < 3 / 10) →
        (m.select_config score samples metrics freeze).get
          "canary_percentage" (PyVal.num 0) = PyVal.num 0) ∧
      (¬(freeze = true ∧ (List.lookup "canary_metric" metrics).getD (2 / 5) < 3 / 10) →
        ∃ k : ℤ, (m.select_config score samples metrics freeze).get
            "canary_percentage" (PyVal.num 0) = PyVal.num (k : ℚ) ∧
          1 ≤ k ∧ k ≤ 5) ∧
      (∃ k : ℤ, (m.select_config score samples metrics freeze).get
          "canary_percentage" (PyVal.num 0) = PyVal.num (k : ℚ) ∧
        0 ≤ k ∧ k ≤ 10) ∧
      canary_percentage_safe (m.select_config score samples metrics freeze) ctx =
        Except.ok true := by
  intro score samples m metrics freeze ctx
  by_cases hc : freeze = true ∧ (List.lookup "canary_metric" metrics).getD (2 / 5) < 3 / 10
  · have hget : (m.select_config score samples metrics freeze).get
        "canary_percentage" (PyVal.num 0) = PyVal.num 0 := by
      rw [OnlineTuningBandit.select_config, if_pos (by exact_mod_cast hc)]
      simp [PyDict.get_cons]
    refine ⟨fun _ => hget, fun h => absurd hc h, ⟨0, by simpa using hget, by norm_num⟩, ?_⟩
    rw [canary_percentage_safe, hget]
    rfl
  · have hget : (m.select_config score samples metrics freeze).get
        "canary_percentage" (PyVal.num 0) =
        PyVal.num ((min 5 (max 1 (truncToZero
          ((List.lookup "canary_metric" metrics).getD (2 / 5) * 10))) : ℤ) : ℚ) := by
      rw [OnlineTuningBandit.select_config, if_neg (by exact_mod_cast hc)]
      simp [PyDict.get_cons]
    set k : ℤ := min 5 (max 1 (truncToZero
      ((List.lookup "canary_metric" metrics).getD (2 / 5) * 10))) with hk
    have hk1 : 1 ≤ k := by
      rw [hk]
      have := le_max_left (1 : ℤ) (truncToZero ((List.lookup "canary_metric" metrics).getD (2 / 5) * 10))
      omega
    have hk5 : k ≤ 5 := min_le_left _ _
    refine ⟨fun h => absurd h hc, fun _ => ⟨k, hget, hk1, hk5⟩,
      ⟨k, hget, by omega, by omega⟩, ?_⟩
    rw [canary_percentage_safe, hget]
    have h0 : pyLE (PyVal.num 0) (PyVal.num (k : ℚ)) = Except.ok true := by
      simp only [pyLE]
      congr 1
      rw [decide_eq_true_eq]
      exact_mod_cast (by omega : (0 : ℤ) ≤ k)
    rw [h0]
    simp only [pyLE]
    congr 1
    rw [decide_eq_true_eq]
    exact_mod_cast (by omega : k ≤ (10 : ℤ))

/-- Witness for C10: concrete frozen and non-frozen calls on a Thompson
tuning bandit. -/
theorem C10_canary_percentage_safe_range_witness :
    ¬((false : Bool) = true ∧
      (List.lookup "canary_metric" [("canary_metric", (1 : ℚ) / 4)]).getD (2 / 5) < 3 / 10) ∧
    (∃ k : ℤ,
      ((mkOnlineTuningBandit 5 "thompson_sampling" (1 / 5)).select_config
          (fun _ _ => 0) [1, 0, 0, 0, 0] [("canary_metric", (1 : ℚ) / 4)] false).get
        "canary_percentage" (PyVal.num 0) = PyVal.num (k : ℚ) ∧ 1 ≤ k ∧ k ≤ 5) := by
  have hnc : ¬((false : Bool) = true ∧
      (List.lookup "canary_metric" [("canary_metric", (1 : ℚ) / 4)]).getD (2 / 5) < 3 / 10) := by
    intro h
    exact Bool.noConfusion h.1
  exact ⟨hnc,
    (C10_canary_percentage_safe_range (fun _ _ => 0) [1, 0, 0, 0, 0]
      (mkOnlineTuningBandit 5 "thompson_sampling" (1 / 5))
      [("canary_metric", (1 : ℚ) / 4)] false none).2.1 hnc⟩

/- ---------------------------------------------------------------------
Feature store (src/ml-backend/features/feature_store.py)
--------------------------------------------------------------------- -/

/-- The FeatureType enum. -/
inductive FeatureType where
  | real_time
  | batch
  | derived
deriving DecidableEq, Repr

/-- The Feature dataclass.  Feature values are Python objects that may be
None; the model restricts non-None values to numbers (the shape every
registered compute function in this codebase returns), so a value is an
`Option ℚ` with `none` standing for Python None.  A compute function
takes the context and the map of resolved dependency values and may
throw. -/
structure Feature where
  name : String
  feature_type : FeatureType
  description : String
  compute_fn : Option (Option PyDict → List (String × Option ℚ) →
    Except String (Option ℚ))
  dependencies : List String
  ttl_seconds : ℕ
  last_updated : Option ℕ
  cached_value : Option ℚ

/-- The FeatureStore state: the registry of features keyed by name (the
`feature_cache` dict of the source is written but never read, so it
carries no behaviour). -/
structure FeatureStore where
  features : List (String × Feature)

/-- `FeatureStore._is_cache_valid` (feature_store.py lines 150-156):
valid when a cached value and a timestamp exist and the age is below the
TTL.  Timestamps are seconds as naturals; `now` is passed explicitly. -/
def is_cache_valid (now : ℕ) (f : Feature) : Bool :=
  match f.cached_value, f.last_updated with
  | none, _ => false
  | some _, none => false
  | some _, some t => decide (now - t < f.ttl_seconds)

/-- Writing the computed value back into the registered feature object
(the mutation `feature.cached_value = value; feature.last_updated = now`
on the object held in the registry). -/
def storeUpdate (st : FeatureStore) (name : String) (v : Option ℚ) (now : ℕ) :
    FeatureStore :=
  { features := st.features.map (fun p =>
      if p.1 = name then
        (p.1, { p.2 with cached_value := v, last_updated := some now })
      else p) }

/-- Resolution of a dependency list, threading the store left to right;
`g` is the recursive `get_feature` call at the next recursion depth. -/
def resolveDeps
    (g : FeatureStore → String → Except String (Option ℚ × FeatureStore)) :
    FeatureStore → List String →
      Except String (List (String × Option ℚ) × FeatureStore)
  | st, [] => Except.ok ([], st)
  | st, d :: ds =>
      match g st d with
      | Except.error e => Except.error e
      | Except.ok (v, st1) =>
          match resolveDeps g st1 ds with
          | Except.error e => Except.error e
          | Except.ok (vs, st2) => Except.ok ((d, v) :: vs, st2)

/-- `FeatureStore.get_feature` (feature_store.py lines 81-120): raise on
an unregistered name; return the cached value while fresh; otherwise
resolve the dependencies recursively, invoke the compute function, cache
and return; a feature without a compute function returns None.  The fuel
argument bounds the recursion depth: exhaustion models Python's
RecursionError on a cyclic dependency graph (also an Exception). -/
def get_feature : ℕ → FeatureStore → ℕ → String → Option PyDict →
    Except String (Option ℚ × FeatureStore)
  | 0, _, _, _, _ => Except.error "RecursionError"
  | fuel + 1, st, now, name, ctx =>
      match List.lookup name st.features with
      | none => Except.error ("Feature not registered: " ++ name)
      | some f =>
          if is_cache_valid now f then Except.ok (f.cached_value, st)
          else
            match f.compute_fn with
            | none => Except.ok (none, st)
            | some cf =>
                match resolveDeps (fun st' n => get_feature fuel st' now n ctx)
                    st f.dependencies with
                | Except.error e => Except.error e
                | Except.ok (depVals, st1) =>
                    match cf ctx depVals with
                    | Except.error e => Except.error e
                    | Except.ok v =>
                        Except.ok (v, storeUpdate st1 name v now)

/-- Python dict assignment `d[k] = v`: replace the existing binding in
place or append a new one. -/
def assocSet (d : List (String × Option ℚ)) (k : String) (v : Option ℚ) :
    List (String × Option ℚ) :=
  if (List.lookup k d).isSome then
    d.map (fun p => if p.1 = k then (k, v) else p)
  else d ++ [(k, v)]

/-- The loop of `FeatureStore.get_feature_vector` (feature_store.py lines
137-143): each requested name is resolved with `get_feature`; an
exception is caught and recorded as a None value for that name, leaving
the store as it was before the failing call. -/
def getVectorGo (fuel now : ℕ) (ctx : Option PyDict) :
    List String → List (String × Option ℚ) → FeatureStore →
      List (String × Option ℚ) × FeatureStore
  | [], acc, st => (acc, st)
  | n :: ns, acc, st =>
      match get_feature fuel st now n ctx with
      | Except.error _ => getVectorGo fuel now ctx ns (assocSet acc n none) st
      | Except.ok (v, st1) => getVectorGo fuel now ctx ns (assocSet acc n v) st1

/-- The FeatureVector dataclass (entity_id is never set by the source's
callers). -/
structure FeatureVector where
  features : List (String × Option ℚ)
  timestamp : ℕ

/-- `FeatureStore.get_feature_vector` (feature_store.py lines 122-148). -/
def get_feature_vector (fuel : ℕ) (st : FeatureStore) (now : ℕ)
    (feature_names : List String) (ctx : Option PyDict) :
    FeatureVector × FeatureStore :=
  let r := getVectorGo fuel now ctx feature_names [] st
  ({ features := r.1, timestamp := now }, r.2)

/-- Appending a fresh binding does not change the lookup of other keys. -/
theorem lookup_append_single_ne (d : List (String × Option ℚ)) (k n : String)
    (v : Option ℚ) (h : n ≠ k) :
    List.lookup n (d ++ [(k, v)]) = List.lookup n d := by
  induction d with
  | nil => simp [List.lookup, beq_eq_false_iff_ne.mpr h]
  | cons p ps ih =>
      simp only [List.cons_append, List.lookup]
      cases hnb : (n == p.1) with
      | true => rfl
      | false => exact ih

/-- Replacing the bindings of key k in place yields value v at key k,
provided the key occurs. -/
theorem lookup_map_set_self (d : List (String × Option ℚ)) (k : String)
    (v : Option ℚ) (h : (List.lookup k d).isSome = true) :
    List.lookup k (d.map (fun p => if p.1 = k then (k, v) else p)) = some v := by
  induction d with
  | nil => simp at h
  | cons p ps ih =>
      rw [List.map_cons]
      by_cases hp : p.1 = k
      · rw [if_pos hp]
        simp [List.lookup]
      · rw [if_neg hp]
        have hb : (k == p.1) = false :=
          beq_eq_false_iff_ne.mpr (fun he => hp he.symm)
        simp only [List.lookup, hb] at h ⊢
        exact ih h

/-- Replacing the bindings of key k in place does not change the lookup
of other keys. -/
theorem lookup_map_set_ne (d : List (String × Option ℚ)) (k n : String)
    (v : Option ℚ) (h : n ≠ k) :
    List.lookup n (d.map (fun p => if p.1 = k then (k, v) else p)) =
      List.lookup n d := by
  induction d with
  | nil => simp
  | cons p ps ih =>
      rw [List.map_cons]
      by_cases hp : p.1 = k
      · rw [if_pos hp]
        have hb : (n == k) = false := beq_eq_false_iff_ne.mpr h
        have hb' : (n == p.1) = false := by rw [hp]; exact hb
        simp only [List.lookup, hb, hb']
        exact ih
      · rw [if_neg hp]
        simp only [List.lookup]
        cases hnb : (n == p.1) with
        | true => rfl
        | false => exact ih

/-- Setting a key makes it present with the given value. -/
theorem assocSet_lookup_self (d : List (String × Option ℚ)) (k : String)
    (v : Option ℚ) : List.lookup k (assocSet d k v) = some v := by
  unfold assocSet
  by_cases h : (List.lookup k d).isSome
  · rw [if_pos h]
    exact lookup_map_set_self d k v h
  · rw [if_neg h]
    have : List.lookup k (d ++ [(k, v)]) = some v := by
      induction d with
      | nil => simp [List.lookup]
      | cons p ps ih =>
          have hb : (k == p.1) = false := by
            cases hkb : (k == p.1) with
            | false => rfl
            | true =>
                exact absurd (by simp [List.lookup, hkb] : (List.lookup k (p :: ps)).isSome = true) h
          simp only [List.cons_append, List.lookup, hb]
          apply ih
          intro hs
          exact h (by simp [List.lookup, hb, hs])
    exact this

/-- Setting one key leaves every other key's binding unchanged. -/
theorem assocSet_lookup_ne (d : List (String × Option ℚ)) (k n : String)
    (v : Option ℚ) (h : n ≠ k) :
    List.lookup n (assocSet d k v) = List.lookup n d := by
  unfold assocSet
  by_cases hs : (List.lookup k d).isSome
  · rw [if_pos hs]
    exact lookup_map_set_ne d k n v h
  · rw [if_neg hs]
    exact lookup_append_single_ne d k n v h

/-- Keys already present in the accumulator stay present through the
vector loop. -/
theorem getVectorGo_preserves_isSome (fuel now : ℕ) (ctx : Option PyDict) :
    ∀ (names : List String) (acc : List (String × Option ℚ))
      (st : FeatureStore) (n : String),
      (List.lookup n acc).isSome = true →
      (List.lookup n (getVectorGo fuel now ctx names acc st).1).isSome = true := by
  intro names
  induction names with
  | nil => intro acc st n h; exact h
  | cons m ms ih =>
      intro acc st n h
      have hset : ∀ (v : Option ℚ), (List.lookup n (assocSet acc m v)).isSome = true := by
        intro v
        by_cases hnm : n = m
        · rw [hnm, assocSet_lookup_self]; rfl
        · rw [assocSet_lookup_ne acc m n v hnm]; exact h
      simp only [getVectorGo]
      cases hg : get_feature fuel st now m ctx with
      | error e => exact ih _ _ n (hset none)
      | ok r => exact ih _ _ n (hset r.1)

/-- Every name in the requested list ends up bound in the result of the
vector loop. -/
theorem getVectorGo_mem_isSome (fuel now : ℕ) (ctx : Option PyDict) :
    ∀ (names : List String) (acc : List (String × Option ℚ))
      (st : FeatureStore) (n : String), n ∈ names →
      (List.lookup n (getVectorGo fuel now ctx names acc st).1).isSome = true := by
  intro names
  induction names with
  | nil => intro acc st n h; simp at h
  | cons m ms ih =>
      intro acc st n h
      rcases List.mem_cons.mp h with rfl | h'
      · have hset : ∀ (v : Option ℚ),
            (List.lookup n (assocSet acc n v)).isSome = true := by
          intro v; rw [assocSet_lookup_self]; rfl
        simp only [getVectorGo]
        cases hg : get_feature fuel st now n ctx with
        | error e => exact getVectorGo_preserves_isSome fuel now ctx ms _ _ n (hset none)
        | ok r => exact getVectorGo_preserves_isSome fuel now ctx ms _ _ n (hset r.1)
      · simp only [getVectorGo]
        cases hg : get_feature fuel st now m ctx with
        | error e => exact ih _ _ n h'
        | ok r => exact ih _ _ n h'

/-- The vector loop splits around any one requested name: the names
before it are processed first, then the name itself is resolved in the
store those left behind — an exception is recorded as a None binding for
that name only and leaves the store untouched — and the remaining names
are processed afterwards either way. -/
theorem getVectorGo_split (fuel now : ℕ) (ctx : Option PyDict) (n : String)
    (post : List String) :
    ∀ (pre : List String) (acc : List (String × Option ℚ)) (st : FeatureStore),
      getVectorGo fuel now ctx (pre ++ n :: post) acc st =
        (let r := getVectorGo fuel now ctx pre acc st
         match get_feature fuel r.2 now n ctx with
         | Except.error _ => getVectorGo fuel now ctx post (assocSet r.1 n none) r.2
         | Except.ok (v, st2) => getVectorGo fuel now ctx post (assocSet r.1 n v) st2) := by
  intro pre
  induction pre with
  | nil =>
      intro acc st
      simp only [List.nil_append, getVectorGo]
  | cons p ps ih =>
      intro acc st
      simp only [List.cons_append, getVectorGo]
      cases hg : get_feature fuel st now p ctx with
      | error e => exact ih _ _
      | ok r => exact ih _ _

/-- C7: get_feature_vector resolves each requested name independently; an
exception while computing one feature is caught and recorded as a None
(null) binding for that name only, with the store state unchanged by the
failure and the remaining names still processed; every requested name is
bound in the returned mapping, and the function is total (it returns a
FeatureVector, never an exception). -/
theorem C7_get_feature_vector_null_on_error :
    ∀ (fuel now : ℕ) (ctx : Option PyDict) (st : FeatureStore)
      (names : List String),
      (∀ n ∈ names,
        (List.lookup n
          (get_feature_vector fuel st now names ctx).1.features).isSome = true) ∧
      (∀ (pre post : List String) (n : String)
         (acc : List (String × Option ℚ)) (st0 : FeatureStore),
        getVectorGo fuel now ctx (pre ++ n :: post) acc st0 =
          (let r := getVectorGo fuel now ctx pre acc st0
           match get_feature fuel r.2 now n ctx with
           | Except.error _ =>
               getVectorGo fuel now ctx post (assocSet r.1 n none) r.2
           | Except.ok (v, st2) =>
               getVectorGo fuel now ctx post (assocSet r.1 n v) st2)) := by
  intro fuel now ctx st names
  constructor
  · intro n hn
    exact getVectorGo_mem_isSome fuel now ctx names [] st n hn
  · intro pre post n acc st0
    exact getVectorGo_split fuel now ctx n post pre acc st0

/-- A concrete two-feature store: "good" computes 7, "bad" throws. -/
def c7Store : FeatureStore :=
  { features :=
      [("good",
        { name := "good", feature_type := FeatureType.real_time,
          description := "computes 7",
          compute_fn := some (fun _ _ => Except.ok (some 7)),
          dependencies := [], ttl_seconds := 300,
          last_updated := none, cached_value := none }),
       ("bad",
        { name := "bad", feature_type := FeatureType.real_time,
          description := "raises",
          compute_fn := some (fun _ _ => Except.error "boom"),
          dependencies := [], ttl_seconds := 300,
          last_updated := none, cached_value := none })] }

/-- Witness for C7: on the concrete store, the name whose compute throws
is still bound in the returned vector. -/
theorem C7_get_feature_vector_null_on_error_witness :
    ("bad" ∈ ["good", "bad"]) ∧
    (List.lookup "bad"
      (get_feature_vector 5 c7Store 0 ["good", "bad"] none).1.features).isSome
      = true := by
  have hm : "bad" ∈ ["good", "bad"] := by simp
  exact ⟨hm,
    (C7_get_feature_vector_null_on_error 5 0 none c7Store ["good", "bad"]).1 "bad" hm⟩

/- ---------------------------------------------------------------------
Bayesian online changepoint detection
(src/ml-backend/models/anomaly/bocpd.py)
--------------------------------------------------------------------- -/

/-- One sufficient-statistics record per run length: running mean,
running variance and observation count. -/
structure ObsParam where
  mean : ℚ
  var : ℚ
  n : ℕ
deriving DecidableEq, Repr

/-- The BOCPDModel state.  `recent_values` is the sliding window the
scipy-free fallback `_simple_update` creates lazily with `hasattr`; an
absent attribute behaves exactly like the empty list, so the model
initializes it to []. -/
structure BOCPDModel where
  hazard_rate : ℚ
  threshold : ℚ
  observation_model : String
  run_length_dist : Option (List ℚ)
  observation_params : List ObsParam
  changepoints : List ℕ
  step : ℕ
  recent_values : List ℚ
deriving DecidableEq

/-- The BOCPDModel constructor (bocpd.py lines 25-47). -/
def mkBOCPDModel (hazard_rate threshold : ℚ) (observation_model : String) :
    BOCPDModel :=
  { hazard_rate := hazard_rate
    threshold := threshold
    observation_model := observation_model
    run_length_dist := none
    observation_params := []
    changepoints := []
    step := 0
    recent_values := [] }

/-- `BOCPDModel.update` (bocpd.py lines 49-145), the scipy path.  The
per-run-length likelihood (`stats.t.pdf` for the "gaussian" observation
model, `stats.norm.pdf` otherwise) is transcendental and is abstracted as
the function argument `pdf` over (observation, sufficient statistics);
the floor `np.maximum(likelihoods, 1e-10)`, the growth/changepoint
masses, the normalization, the parameter recursions and the changepoint
log come from the source.  The source loop indexes
`observation_params[r]` for `r < len(run_length_dist)`; the two lists
always have equal length (proved below as part of the invariant), so the
zipWith and the map over the parameter list are that same loop.
`bocpdStep` is the mass/normalization part of the update: growth mass
per run length, collapsed changepoint mass, and the renormalized new
run-length vector. -/
def bocpdStep (hazard : ℚ) (dist liks : List ℚ) : ℚ × List ℚ :=
  let wl := List.zipWith (fun d l => d * l) dist liks
  let growth := wl.map (fun w => w * (1 - hazard))
  let cp := (wl.map (fun w => w * hazard)).sum
  let new_dist_un := cp :: growth
  let s := new_dist_un.sum
  (cp, new_dist_un.map (fun q => q / s))

/-- The incremental sufficient-statistics recursions of the update
(bocpd.py lines 116-129): run length 0 is reseeded from the observation
alone, and each existing record gets the online mean/variance update with
the variance floored at 0.1. -/
def bocpdNewParams (x : ℚ) (params : List ObsParam) : List ObsParam :=
  { mean := x, var := 1, n := 1 } ::
    params.map (fun p =>
      let n' : ℕ := p.n + 1
      let mean' := p.mean + (x - p.mean) / (n' : ℚ)
      let var' : ℚ :=
        if 1 < n' then
          (((n' : ℚ) - 2) * p.var + (x - p.mean) ^ 2 / (n' : ℚ)) / ((n' : ℚ) - 1)
        else 1
      { mean := mean', var := max (1 / 10) var', n := n' })

def BOCPDModel.update (pdf : ℚ → ObsParam → ℚ) (m : BOCPDModel) (x : ℚ) :
    BOCPDModel × (ℚ × ℕ) :=
  match m.run_length_dist with
  | none =>
      ({ m with
          run_length_dist := some [1]
          observation_params := [{ mean := x, var := 1, n := 1 }]
          step := 0 }, (0, 0))
  | some dist =>
      let liks := m.observation_params.map (fun p => max (pdf x p) (1 / 10 ^ 10))
      let r := bocpdStep m.hazard_rate dist liks
      let most_likely := argmaxIdx r.2
      let cps :=
        if m.threshold < r.1 then m.changepoints ++ [m.step] else m.changepoints
      ({ m with
          run_length_dist := some r.2
          observation_params := bocpdNewParams x m.observation_params
          changepoints := cps
          step := m.step + 1 }, (r.1, most_likely))

/-- The np.mean of a list (0 on the empty list, which no caller reaches). -/
def listMean (l : List ℚ) : ℚ :=
  if l = [] then 0 else l.sum / l.length

/-- `BOCPDModel._simple_update` (bocpd.py lines 201-240), the scipy-free
fallback: append the observation to a window capped at the last 100
values; below 10 values return probability 0; otherwise flag a change by
the z-score of the last-10 mean against the full-window mean and standard
deviation, scaled by 3 and capped at 0.99.  `np.std` involves a square
root and is abstracted as the function argument `std`. -/
def BOCPDModel.simple_update (std : List ℚ → ℚ) (m : BOCPDModel) (x : ℚ) :
    BOCPDModel × (ℚ × ℕ) :=
  let recent0 := m.recent_values ++ [x]
  let recent := if 100 < recent0.length then recent0.drop (recent0.length - 100)
    else recent0
  let m' := { m with recent_values := recent }
  if recent.length < 10 then (m', (0, recent.length))
  else
    let recent_mean := listMean (recent.drop (recent.length - 10))
    let overall_mean := listMean recent
    let overall_std := std recent
    let change_prob :=
      if 0 < overall_std then
        min (99 / 100) (|recent_mean - overall_mean| / overall_std / 3)
      else 0
    (m', (change_prob, recent.length))

/-- `BOCPDModel.reset` (bocpd.py lines 242-247): clears the run-length
distribution, the observation parameters, the changepoint log and the
step counter — and nothing else; in particular it does not touch
`recent_values`. -/
def BOCPDModel.reset (m : BOCPDModel) : BOCPDModel :=
  { m with
      run_length_dist := none
      observation_params := []
      changepoints := []
      step := 0 }

/-- C8 (code behaviour at the failing input): feed observations 1, 2, 3
through the fallback `_simple_update` path, reset, and feed 4.  The
reset detector still holds the sliding window [1, 2, 3], so the update
returns run length 4, while a freshly constructed detector returns run
length 1 on the same observation — reset does not restore the
pre-first-observation state. -/
theorem C8_reset_keeps_recent_values :
    (BOCPDModel.reset
        ((((mkBOCPDModel (1 / 250) (1 / 2) "gaussian").simple_update (fun _ => 0)
            1).1.simple_update (fun _ => 0) 2).1.simple_update (fun _ => 0)
            3).1).recent_values = [1, 2, 3] ∧
    (mkBOCPDModel (1 / 250) (1 / 2) "gaussian").recent_values = [] ∧
    ((BOCPDModel.reset
        ((((mkBOCPDModel (1 / 250) (1 / 2) "gaussian").simple_update (fun _ => 0)
            1).1.simple_update (fun _ => 0) 2).1.simple_update (fun _ => 0)
            3).1).simple_update (fun _ => 0) 4).2 = (0, 4) ∧
    ((mkBOCPDModel (1 / 250) (1 / 2) "gaussian").simple_update
        (fun _ => 0) 4).2 = (0, 1) ∧
    BOCPDModel.reset
        ((((mkBOCPDModel (1 / 250) (1 / 2) "gaussian").simple_update (fun _ => 0)
            1).1.simple_update (fun _ => 0) 2).1.simple_update (fun _ => 0)
            3).1 ≠ mkBOCPDModel (1 / 250) (1 / 2) "gaussian" := by
  refine ⟨rfl, rfl, rfl, rfl, ?_⟩
  intro h
  have h' := congrArg BOCPDModel.recent_values h
  simp [mkBOCPDModel, BOCPDModel.reset, BOCPDModel.simple_update] at h'

/-- Distributing a constant right factor over a list sum. -/
theorem sum_map_mul_right (l : List ℚ) (c : ℚ) :
    (l.map (fun x => x * c)).sum = l.sum * c := by
  induction l with
  | nil => simp
  | cons x xs ih => simp [ih, add_mul]

/-- Distributing a constant divisor over a list sum. -/
theorem sum_map_div (l : List ℚ) (c : ℚ) :
    (l.map (fun x => x / c)).sum = l.sum / c := by
  induction l with
  | nil => simp
  | cons x xs ih => simp [ih, add_div]

/-- A list of non-negative entries summing to one has a positive entry. -/
theorem exists_pos_of_sum_one (l : List ℚ) (h0 : ∀ q ∈ l, 0 ≤ q)
    (h1 : l.sum = 1) : ∃ q ∈ l, 0 < q := by
  by_contra hc
  push_neg at hc
  have hz : ∀ q ∈ l, q = 0 := fun q hq => le_antisymm (hc q hq) (h0 q hq)
  rw [List.sum_eq_zero hz] at h1
  exact absurd h1 (by norm_num)

/-- Pointwise products of non-negative lists are non-negative. -/
theorem zipWith_mul_nonneg : ∀ (a b : List ℚ),
    (∀ q ∈ a, 0 ≤ q) → (∀ q ∈ b, 0 ≤ q) →
    ∀ q ∈ List.zipWith (fun d l => d * l) a b, 0 ≤ q := by
  intro a
  induction a with
  | nil => intro b _ _ q hq; simp at hq
  | cons x xs ih =>
      intro b ha hb q hq
      cases b with
      | nil => simp at hq
      | cons y ys =>
          simp only [List.zipWith_cons_cons, List.mem_cons] at hq
          rcases hq with rfl | hq
          · exact mul_nonneg (ha x (by simp)) (hb y (by simp))
          · exact ih ys (fun q hq => ha q (by simp [hq]))
              (fun q hq => hb q (by simp [hq])) q hq

/-- The pointwise product of a non-negative list with a positive entry
and an (equally long) positive list has positive sum. -/
theorem zipWith_mul_sum_pos : ∀ (a b : List ℚ), a.length = b.length →
    (∀ q ∈ a, 0 ≤ q) → (∀ q ∈ b, 0 < q) → (∃ q ∈ a, 0 < q) →
    0 < (List.zipWith (fun d l => d * l) a b).sum := by
  intro a
  induction a with
  | nil => intro b _ _ _ hex; simp at hex
  | cons x xs ih =>
      intro b hlen ha hb hex
      cases b with
      | nil => simp at hlen
      | cons y ys =>
          simp only [List.zipWith_cons_cons, List.sum_cons]
          have hxs0 : ∀ q ∈ xs, 0 ≤ q := fun q hq => ha q (by simp [hq])
          have hys0 : ∀ q ∈ ys, 0 < q := fun q hq => hb q (by simp [hq])
          have hrest0 : 0 ≤ (List.zipWith (fun d l => d * l) xs ys).sum :=
            List.sum_nonneg
              (zipWith_mul_nonneg xs ys hxs0 (fun q hq => le_of_lt (hys0 q hq)))
          rcases hex with ⟨q, hq, hqpos⟩
          rcases List.mem_cons.mp hq with rfl | hq'
          · have : 0 < q * y := mul_pos hqpos (hb y (by simp))
            linarith
          · have hx0 : 0 ≤ x * y :=
              mul_nonneg (ha x (by simp)) (le_of_lt (hb y (by simp)))
            have : 0 < (List.zipWith (fun d l => d * l) xs ys).sum :=
              ih ys (by simpa using hlen) hxs0 hys0 ⟨q, hq', hqpos⟩
            linarith

/-- The invariant of the BOCPD state after k observations on the scipy
path: the run-length vector exists, is non-negative, sums to exactly 1,
has length k, one sufficient-statistics record per entry, and the step
counter is k - 1. -/
def GoodState (m : BOCPDModel) (k : ℕ) : Prop :=
  1 ≤ k ∧
  ∃ dist : List ℚ, m.run_length_dist = some dist ∧
    dist.sum = 1 ∧ (∀ q ∈ dist, 0 ≤ q) ∧
    dist.length = k ∧ m.observation_params.length = k ∧ m.step = k - 1

/-- The first observation initializes the invariant. -/
theorem update_init_good (pdf : ℚ → ObsParam → ℚ) (m : BOCPDModel) (x : ℚ)
    (h : m.run_length_dist = none) :
    GoodState (m.update pdf x).1 1 := by
  simp only [BOCPDModel.update, h]
  exact ⟨le_refl 1, [1], rfl, by simp, by simp, by simp, by simp, by simp⟩

/-- The renormalized vector produced by one mass update: it sums to
exactly 1, is entrywise non-negative, and is one entry longer than the
previous run-length vector. -/
theorem bocpdStep_spec (hazard : ℚ) (dist liks : List ℚ)
    (h0 : 0 ≤ hazard) (h1 : hazard ≤ 1)
    (hnn : ∀ q ∈ dist, 0 ≤ q) (hsum : dist.sum = 1)
    (hpos : ∀ q ∈ liks, 0 < q) (hlen : dist.length = liks.length) :
    (bocpdStep hazard dist liks).2.sum = 1 ∧
    (∀ q ∈ (bocpdStep hazard dist liks).2, 0 ≤ q) ∧
    (bocpdStep hazard dist liks).2.length = dist.length + 1 := by
  unfold bocpdStep
  simp only
  set wl := List.zipWith (fun d l => d * l) dist liks with hwl
  have hwlnn : ∀ q ∈ wl, 0 ≤ q :=
    zipWith_mul_nonneg dist liks hnn (fun q hq => le_of_lt (hpos q hq))
  have hwlpos : 0 < wl.sum :=
    zipWith_mul_sum_pos dist liks hlen hnn hpos
      (exists_pos_of_sum_one dist hnn hsum)
  have hcp : (wl.map (fun w => w * hazard)).sum = wl.sum * hazard :=
    sum_map_mul_right wl hazard
  have hgr : (wl.map (fun w => w * (1 - hazard))).sum = wl.sum * (1 - hazard) :=
    sum_map_mul_right wl (1 - hazard)
  have hs : ((wl.map (fun w => w * hazard)).sum ::
      wl.map (fun w => w * (1 - hazard))).sum = wl.sum := by
    rw [List.sum_cons, hcp, hgr]; ring
  refine ⟨?_, ?_, ?_⟩
  · rw [sum_map_div, hs, div_self (ne_of_gt hwlpos)]
  · intro q hq
    rcases List.mem_map.mp hq with ⟨w, hw, rfl⟩
    have hw0 : 0 ≤ w := by
      rcases List.mem_cons.mp hw with rfl | hw'
      · rw [hcp]; exact mul_nonneg (le_of_lt hwlpos) h0
      · rcases List.mem_map.mp hw' with ⟨z, hz, rfl⟩
        exact mul_nonneg (hwlnn z hz) (by linarith)
    exact div_nonneg hw0 (by rw [hs]; exact le_of_lt hwlpos)
  · rw [List.length_map, List.length_cons, List.length_map, hwl,
      List.length_zipWith, hlen, min_self]

/-- One update step preserves the run-length invariant, growing the
vector by exactly one entry. -/
theorem update_preserves_good (pdf : ℚ → ObsParam → ℚ) (m : BOCPDModel)
    (x : ℚ) (k : ℕ) (h0 : 0 ≤ m.hazard_rate) (h1 : m.hazard_rate ≤ 1)
    (hg : GoodState m k) : GoodState (m.update pdf x).1 (k + 1) := by
  obtain ⟨hk, dist, hdist, hsum, hnn, hlen, hplen, hstep⟩ := hg
  have hlikpos : ∀ q ∈ m.observation_params.map
      (fun p => max (pdf x p) (1 / 10 ^ 10)), 0 < q := by
    intro q hq
    rcases List.mem_map.mp hq with ⟨p, _, rfl⟩
    exact lt_of_lt_of_le (by norm_num) (le_max_right _ _)
  have hliklen : dist.length = (m.observation_params.map
      (fun p => max (pdf x p) (1 / 10 ^ 10))).length := by
    rw [List.length_map, hplen, hlen]
  obtain ⟨hs1, hnn', hlen'⟩ :=
    bocpdStep_spec m.hazard_rate dist
      (m.observation_params.map (fun p => max (pdf x p) (1 / 10 ^ 10)))
      h0 h1 hnn hsum hlikpos hliklen
  refine ⟨by omega,
    (bocpdStep m.hazard_rate dist
      (m.observation_params.map (fun p => max (pdf x p) (1 / 10 ^ 10)))).2,
    ?_, hs1, hnn', ?_, ?_, ?_⟩
  · simp only [BOCPDModel.update, hdist]
  · rw [hlen', hlen]
  · simp only [BOCPDModel.update, hdist, bocpdNewParams]
    rw [List.length_cons, List.length_map, hplen]
  · simp only [BOCPDModel.update, hdist]
    omega

/-- The hazard rate is left unchanged by an update. -/
theorem update_hazard (pdf : ℚ → ObsParam → ℚ) (m : BOCPDModel) (x : ℚ) :
    (m.update pdf x).1.hazard_rate = m.hazard_rate := by
  cases h : m.run_length_dist <;> simp [BOCPDModel.update, h]

/-- Folding `update` over a whole observation stream. -/
def updateMany (pdf : ℚ → ObsParam → ℚ) (m : BOCPDModel) (obs : List ℚ) :
    BOCPDModel :=
  obs.foldl (fun m x => (m.update pdf x).1) m

/-- The invariant is preserved along any observation stream, the vector
growing by one entry per observation. -/
theorem updateMany_good (pdf : ℚ → ObsParam → ℚ) :
    ∀ (obs : List ℚ) (m : BOCPDModel) (k : ℕ),
      0 ≤ m.hazard_rate → m.hazard_rate ≤ 1 → GoodState m k →
      GoodState (updateMany pdf m obs) (k + obs.length) := by
  intro obs
  induction obs with
  | nil => intro m k _ _ hg; simpa [updateMany] using hg
  | cons o os ih =>
      intro m k hh0 hh1 hg
      have hstep : GoodState (m.update pdf o).1 (k + 1) :=
        update_preserves_good pdf m o k hh0 hh1 hg
      have hh0' : 0 ≤ (m.update pdf o).1.hazard_rate := by
        rw [update_hazard]; exact hh0
      have hh1' : (m.update pdf o).1.hazard_rate ≤ 1 := by
        rw [update_hazard]; exact hh1
      have := ih (m.update pdf o).1 (k + 1) hh0' hh1' hstep
      have heq : k + 1 + os.length = k + (o :: os).length := by
        simp [List.length_cons]; omega
      rw [← heq]
      exact this

/-- C3: on the scipy (Student's-t likelihood) path, for every non-empty
observation stream and every likelihood function, after every update the
run-length vector sums to exactly 1 (hence within tolerance 1e-9) and
its length equals both the number of observations seen and the step
index plus 1, provided the hazard rate lies in [0, 1] (as the default
1/250 does). -/
theorem C3_run_length_normalized :
    ∀ (pdf : ℚ → ObsParam → ℚ) (hazard threshold : ℚ) (om : String)
      (obs : List ℚ),
      0 ≤ hazard → hazard ≤ 1 → obs ≠ [] →
      ∃ dist : List ℚ,
        (updateMany pdf (mkBOCPDModel hazard threshold om) obs).run_length_dist
          = some dist ∧
        |dist.sum - 1| ≤ 1 / 10 ^ 9 ∧
        dist.length = obs.length ∧
        dist.length =
          (updateMany pdf (mkBOCPDModel hazard threshold om) obs).step + 1 := by
  intro pdf hazard threshold om obs hh0 hh1 hne
  cases obs with
  | nil => exact absurd rfl hne
  | cons o os =>
      have hinit : GoodState ((mkBOCPDModel hazard threshold om).update pdf o).1 1 :=
        update_init_good pdf _ o rfl
      have hh0' : 0 ≤ ((mkBOCPDModel hazard threshold om).update pdf o).1.hazard_rate := by
        rw [update_hazard]; exact hh0
      have hh1' : ((mkBOCPDModel hazard threshold om).update pdf o).1.hazard_rate ≤ 1 := by
        rw [update_hazard]; exact hh1
      have hfold :
          GoodState (updateMany pdf (mkBOCPDModel hazard threshold om) (o :: os))
            (1 + os.length) := by
        have hrw : updateMany pdf (mkBOCPDModel hazard threshold om) (o :: os) =
            updateMany pdf ((mkBOCPDModel hazard threshold om).update pdf o).1 os := rfl
        rw [hrw]
        exact updateMany_good pdf os _ 1 hh0' hh1' hinit
      obtain ⟨hk, dist, hdist, hsum, hnn, hlen, hplen, hstep⟩ := hfold
      refine ⟨dist, hdist, ?_, ?_, ?_⟩
      · rw [hsum]; norm_num
      · rw [hlen, List.length_cons]; omega
      · rw [hlen, hstep]; omega

/-- Witness for C3 at the default hazard rate 1/250 and a two-element
stream. -/
theorem C3_run_length_normalized_witness :
    0 ≤ (1 : ℚ) / 250 ∧ (1 : ℚ) / 250 ≤ 1 ∧ ([5, 6] : List ℚ) ≠ [] ∧
    ∃ dist : List ℚ,
      (updateMany (fun _ _ => 1) (mkBOCPDModel (1 / 250) (1 / 2) "gaussian")
        [5, 6]).run_length_dist = some dist ∧
      |dist.sum - 1| ≤ 1 / 10 ^ 9 ∧
      dist.length = ([5, 6] : List ℚ).length ∧
      dist.length =
        (updateMany (fun _ _ => 1) (mkBOCPDModel (1 / 250) (1 / 2) "gaussian")
          [5, 6]).step + 1 :=
  ⟨by norm_num, by norm_num, by simp,
   C3_run_length_normalized (fun _ _ => 1) (1 / 250) (1 / 2) "gaussian" [5, 6]
     (by norm_num) (by norm_num) (by simp)⟩
